import Mathlib

/-!
# etherpad_exporter: the scrape, decode and export pipeline

A shallow embedding of `etherpad_exporter.go` and proofs about it.

Conventions of the embedding.

* A channel parameter `ch chan<- T` becomes the list of values the function sends on it,
  in sending order.
* A Go `map` is the list of its entries; one `for k, v := range m` traversal is a `Range m`,
  a list holding every entry of `m` exactly once in an order the runtime chooses.
* The outcome of a call into the network (`client.Get`) is an argument of the function that
  makes the call; `url.Parse` and `strconv.Quote` are arguments too.
* `float64(n)` for an `int` value `n` is recorded as `n` itself: a sample value `v : Int`
  stands for the float the conversion of `v` yields.
* A `prometheus.Counter` is its descriptor and the number of `Inc` calls made on it.
* The mutex, the logger and the closing of response bodies do not touch the counters or the
  sink and are left out.
-/

set_option linter.dupNamespace false

namespace EtherpadExporter

/-! ## The Prometheus client types the program uses -/

/-- The constant `namespace` of the source ("For Prometheus metrics"). -/
def namespace' : String := "etherpad"

/-- The library function `prometheus.BuildFQName`: the non-empty parts joined by an underscore,
and the empty string when the name is empty. -/
def BuildFQName (ns subsystem name : String) : String :=
  if name = "" then ""
  else if ns ≠ "" ∧ subsystem ≠ "" then ns ++ "_" ++ subsystem ++ "_" ++ name
  else if ns ≠ "" then ns ++ "_" ++ name
  else if subsystem ≠ "" then subsystem ++ "_" ++ name
  else name

/-- The type `prometheus.Labels`, a map from label names to label values. -/
abbrev Labels := List (String × String)

/-- The type `prometheus.Desc`: the identity of one metric. -/
structure Desc where
  fqName : String
  help : String
  variableLabels : List String
  constLabels : Labels
deriving DecidableEq, Repr

/-- The library function `prometheus.NewDesc`. -/
def NewDesc (fqName help : String) (variableLabels : List String) (constLabels : Labels) : Desc :=
  { fqName := fqName, help := help, variableLabels := variableLabels, constLabels := constLabels }

/-- The type `prometheus.ValueType`. -/
inductive ValueType
  | CounterValue
  | GaugeValue
  | UntypedValue
deriving DecidableEq, Repr

/-- One value sent on a `chan<- prometheus.Metric`: the descriptor, the kind and the number
(`value` stands for the `float64` that the number converts to). -/
structure Metric where
  desc : Desc
  valueType : ValueType
  value : Int
deriving DecidableEq, Repr

/-- The library function `prometheus.MustNewConstMetric`, called without label values. -/
def MustNewConstMetric (desc : Desc) (valueType : ValueType) (value : Int) : Metric :=
  { desc := desc, valueType := valueType, value := value }

/-- The fields of `prometheus.CounterOpts` and `prometheus.GaugeOpts`. -/
structure Opts where
  Namespace : String := ""
  Subsystem : String := ""
  Name : String := ""
  Help : String := ""
  ConstLabels : Labels := []

/-- A `prometheus.Counter`: its descriptor and its count. -/
structure Counter where
  desc : Desc
  val : Nat
deriving DecidableEq, Repr

/-- The library function `prometheus.NewCounter`. -/
def NewCounter (opts : Opts) : Counter :=
  { desc := NewDesc (BuildFQName opts.Namespace opts.Subsystem opts.Name) opts.Help [] opts.ConstLabels,
    val := 0 }

/-- The method `Counter.Inc`: adds one. -/
def Counter.Inc (c : Counter) : Counter := { c with val := c.val + 1 }

/-- The method `Counter.Desc`. -/
def Counter.Desc (c : Counter) : Desc := c.desc

/-- What the sink receives from `ch <- c` for a counter `c`. -/
def Counter.toMetric (c : Counter) : Metric :=
  { desc := c.desc, valueType := ValueType.CounterValue, value := (c.val : Int) }

/-- A `prometheus.Gauge`: its descriptor and its value. -/
structure Gauge where
  desc : Desc
  val : Int
deriving DecidableEq, Repr

/-- The library function `prometheus.NewGauge`. -/
def NewGauge (opts : Opts) : Gauge :=
  { desc := NewDesc (BuildFQName opts.Namespace opts.Subsystem opts.Name) opts.Help [] opts.ConstLabels,
    val := 0 }

/-! ## The metric catalog -/

/-- The source function `newServerMetric`. -/
def newServerMetric (metricName docString : String) (constLabels : Labels) : Desc :=
  NewDesc (BuildFQName namespace' "server" metricName) docString [] constLabels

/-- The source type `metrics`, a `map[string]*prometheus.Desc`, as the list of its entries. -/
abbrev metrics := List (String × Desc)

/-- The package variable `serverMetrics`. -/
def serverMetrics : metrics :=
  [ ("totalUsers", newServerMetric "users_total" "Total users." []),
    ("connects", newServerMetric "connects_total" "Connects." []),
    ("disconnects", newServerMetric "disconnects_total" "Disconnects." []),
    ("pendingEdits", newServerMetric "pending_edits_total" "Pending edits." []),
    ("edits", newServerMetric "edits_total" "Edits." []),
    ("failedChangesets", newServerMetric "failed_change_sets_total" "Failed change sets." []),
    ("httpRequests", newServerMetric "http_requests_total" "Http requests." []),
    ("http500", newServerMetric "http_500_total" "Http 500." []),
    ("memoryUsage", newServerMetric "memory_usage" "Memory usage." []) ]

/-- The package variable `etherpadUp`. -/
def etherpadUp : Desc :=
  NewDesc (BuildFQName namespace' "" "up") "Was the last scrape of etherpad successful." [] []

/-- One `for k, v := range m` traversal of the map `m`: its entries, each once, in some order. -/
def Range (m : metrics) : Type := { l : List (String × Desc) // l.Perm m }

/-- The traversal that visits the entries in the order they are listed. -/
def Range.listed (m : metrics) : Range m := ⟨m, List.Perm.refl m⟩

/-! ## The status document and its decoding -/

/-- The struct type `struct { Count int }` of the source. -/
structure CountStruct where
  Count : Int
deriving DecidableEq, Repr

/-- The struct type `struct { Meter struct { Count int } }` of the source. -/
structure MeterStruct where
  Meter : CountStruct
deriving DecidableEq, Repr

/-- The source type `EtherPadMetrics`. -/
structure EtherPadMetrics where
  MemoryUsage : Int
  TotalUsers : Int
  PendingEdits : Int
  HttpRequests : MeterStruct
  Edits : MeterStruct
  Connects : CountStruct
  Disconnects : CountStruct
  Http500 : CountStruct
  FailedChangesets : CountStruct
deriving DecidableEq, Repr

/-- The zero value that `var result EtherPadMetrics` declares. -/
def EtherPadMetrics.zero : EtherPadMetrics :=
  { MemoryUsage := 0, TotalUsers := 0, PendingEdits := 0,
    HttpRequests := ⟨⟨0⟩⟩, Edits := ⟨⟨0⟩⟩,
    Connects := ⟨0⟩, Disconnects := ⟨0⟩, Http500 := ⟨0⟩, FailedChangesets := ⟨0⟩ }

/-- A JSON value. A number literal without fraction and exponent is `num` with its value;
one with a fraction or an exponent is `real` with its text. -/
inductive Json where
  | null
  | bool (b : Bool)
  | num (n : Int)
  | real (text : String)
  | str (s : String)
  | arr (elems : List Json)
  | obj (members : List (String × Json))

/-- What a response body holds for `json.NewDecoder(body).Decode`: a leading JSON value that
the scanner of the decoder accepts, given as its syntax tree, or bytes that the scanner
rejects or that cannot be read (the empty body included). -/
inductive ReadCloser where
  | malformed
  | json (doc : Json)

/-- The function `foldRune` of `encoding/json`: the smallest character of the simple case-folding
orbit of `c`. The orbit of an ASCII letter is its two cases, and for `k` and `s` also the Kelvin
sign U+212A and the long s U+017F; an ASCII character that is no letter is alone in its orbit.
A character in no orbit of an ASCII character folds to a character outside ASCII and is kept
as it is here, which decides the same matches against names of ASCII characters, as all field
names of the source are. -/
def foldRune (c : Char) : Char :=
  if c = Char.ofNat 0x017F then Char.ofNat 0x53
  else if c = Char.ofNat 0x212A then Char.ofNat 0x4B
  else c.toUpper

/-- The function `foldName` of `encoding/json`: the name with every character folded. -/
def foldName (name : String) : List Char := name.data.map foldRune

/-- How `encoding/json` matches an object key to the name of a struct field without a tag:
the key is the name, or equals it under Unicode simple case folding (`foldName`). No two
field names of the source match each other. -/
def fieldMatch (field key : String) : Bool :=
  key == field || foldName key == foldName field

/-- How `encoding/json` stores a JSON value in an `int` field holding `cur`: `null` leaves the
field as it is, an integer literal that fits the 64-bit `int` is stored, anything else is a
type error. -/
def decodeInt (v : Json) (cur : Int) : Option Int :=
  match v with
  | Json.null => some cur
  | Json.num n => if -(2 : Int) ^ 63 ≤ n ∧ n < (2 : Int) ^ 63 then some n else none
  | _ => none

/-- One member of an object decoded into a `struct { Count int }`. -/
def decodeCountMember (cur : CountStruct) (kv : String × Json) : Option CountStruct :=
  if fieldMatch "Count" kv.1 then (decodeInt kv.2 cur.Count).map (fun n => { cur with Count := n })
  else some cur

/-- How `encoding/json` stores a JSON value in a `struct { Count int }` holding `cur`: `null`
leaves it, an object is stored member by member (unknown keys skipped), anything else is a
type error. -/
def decodeCount (v : Json) (cur : CountStruct) : Option CountStruct :=
  match v with
  | Json.null => some cur
  | Json.obj members => members.foldlM decodeCountMember cur
  | _ => none

/-- One member of an object decoded into a `struct { Meter struct { Count int } }`. -/
def decodeMeterMember (cur : MeterStruct) (kv : String × Json) : Option MeterStruct :=
  if fieldMatch "Meter" kv.1 then (decodeCount kv.2 cur.Meter).map (fun c => { cur with Meter := c })
  else some cur

/-- How `encoding/json` stores a JSON value in a `struct { Meter struct { Count int } }`. -/
def decodeMeter (v : Json) (cur : MeterStruct) : Option MeterStruct :=
  match v with
  | Json.null => some cur
  | Json.obj members => members.foldlM decodeMeterMember cur
  | _ => none

/-- One member of an object decoded into an `EtherPadMetrics`; the fields are tried in the
order the struct declares them. -/
def decodeMember (cur : EtherPadMetrics) (kv : String × Json) : Option EtherPadMetrics :=
  if fieldMatch "MemoryUsage" kv.1 then
    (decodeInt kv.2 cur.MemoryUsage).map (fun n => { cur with MemoryUsage := n })
  else if fieldMatch "TotalUsers" kv.1 then
    (decodeInt kv.2 cur.TotalUsers).map (fun n => { cur with TotalUsers := n })
  else if fieldMatch "PendingEdits" kv.1 then
    (decodeInt kv.2 cur.PendingEdits).map (fun n => { cur with PendingEdits := n })
  else if fieldMatch "HttpRequests" kv.1 then
    (decodeMeter kv.2 cur.HttpRequests).map (fun m => { cur with HttpRequests := m })
  else if fieldMatch "Edits" kv.1 then
    (decodeMeter kv.2 cur.Edits).map (fun m => { cur with Edits := m })
  else if fieldMatch "Connects" kv.1 then
    (decodeCount kv.2 cur.Connects).map (fun c => { cur with Connects := c })
  else if fieldMatch "Disconnects" kv.1 then
    (decodeCount kv.2 cur.Disconnects).map (fun c => { cur with Disconnects := c })
  else if fieldMatch "Http500" kv.1 then
    (decodeCount kv.2 cur.Http500).map (fun c => { cur with Http500 := c })
  else if fieldMatch "FailedChangesets" kv.1 then
    (decodeCount kv.2 cur.FailedChangesets).map (fun c => { cur with FailedChangesets := c })
  else some cur

/-- How `encoding/json` stores a JSON value in an `EtherPadMetrics` holding `cur`. -/
def decodeStruct (v : Json) (cur : EtherPadMetrics) : Option EtherPadMetrics :=
  match v with
  | Json.null => some cur
  | Json.obj members => members.foldlM decodeMember cur
  | _ => none

/-- The two source lines `var result EtherPadMetrics` and
`err = json.NewDecoder(body).Decode(&result)`: `some result` when `err == nil`, and `none` when
the decoder reports an error. -/
def Decode (body : ReadCloser) : Option EtherPadMetrics :=
  match body with
  | ReadCloser.malformed => none
  | ReadCloser.json doc => decodeStruct doc EtherPadMetrics.zero

/-- The values of the members of an object whose key matches the field `name`. -/
def Json.fieldValues (name : String) : Json → List Json
  | Json.obj members => (members.filter (fun kv => fieldMatch name kv.1)).map Prod.snd
  | _ => []

/-- Whether the document has a member on the path of field names `path`. -/
def Json.present : List String → Json → Bool
  | [], _ => true
  | name :: rest, j => (j.fieldValues name).any (Json.present rest)

/-- The status document of the worked example, with `totalUsers` 5 and `connects.count` 10. -/
def exampleDoc : Json :=
  Json.obj [("totalUsers", Json.num 5), ("connects", Json.obj [("count", Json.num 10)])]

/-! ## Errors and the fetcher -/

/-- The Go `error` values of the program. -/
inductive Error where
  /-- An error value a library call returned, with its message. -/
  | external (msg : String)
  /-- The value of `fmt.Errorf("HTTP status %d", code)`. -/
  | httpStatus (code : Int)
  /-- The value of `fmt.Errorf("unsupported scheme: %q", scheme)`. -/
  | unsupportedScheme (scheme : String)
deriving DecidableEq, Repr

/-- The method `Error()` of an error: its message. The verb `%d` prints the decimal digits
with a leading minus sign for a negative number; the verb `%q` prints `quote` of the string,
`quote` being `strconv.Quote`. -/
def Error.Error (quote : String → String) : Error → String
  | Error.external msg => msg
  | Error.httpStatus code => "HTTP status " ++ toString code
  | Error.unsupportedScheme scheme => "unsupported scheme: " ++ quote scheme

/-- The fields of `http.Response` the program reads. -/
structure Response where
  StatusCode : Int
  Body : ReadCloser

/-- The source function `fetchHTTP`: the closure it returns, applied to what `client.Get(uri)`
returns in that call. -/
def fetchHTTP (_uri : String) (_sslVerify : Bool) (_timeout : Int)
    (get : Except Error Response) : Except Error ReadCloser :=
  match get with
  | Except.error err => Except.error err
  | Except.ok resp =>
    if ¬ (resp.StatusCode ≥ 200 ∧ resp.StatusCode < 300) then
      Except.error (Error.httpStatus resp.StatusCode)
    else
      Except.ok resp.Body

/-! ## The exporter -/

/-- The source type `Exporter`. -/
structure Exporter where
  URI : String
  fetch : Except Error Response → Except Error ReadCloser
  up : Gauge
  totalScrapes : Counter
  jsonParseFailures : Counter
  serverMetrics : metrics

/-- The field of `url.URL` the program reads. -/
structure URL where
  Scheme : String
deriving DecidableEq, Repr

/-- The source function `NewExporter`; `urlParse` is `url.Parse`. -/
def NewExporter (urlParse : String → Except Error URL) (uri : String) (sslVerify : Bool)
    (timeout : Int) : Except Error Exporter :=
  match urlParse uri with
  | Except.error err => Except.error err
  | Except.ok u =>
    if u.Scheme = "http" ∨ u.Scheme = "https" then
      Except.ok
        { URI := uri,
          fetch := fetchHTTP uri sslVerify timeout,
          up := NewGauge
            { Namespace := namespace', Name := "up",
              Help := "Was the last scrape of etherpad successful." },
          totalScrapes := NewCounter
            { Namespace := namespace', Name := "exporter_total_scrapes",
              Help := "Current total Etherpad scrapes." },
          jsonParseFailures := NewCounter
            { Namespace := namespace', Name := "exporter_json_parse_failures",
              Help := "Number of errors while parsing json." },
          serverMetrics := serverMetrics }
    else
      Except.error (Error.unsupportedScheme u.Scheme)

/-- The source method `Exporter.Describe`: the descriptors it sends, in order. Each of the two
loops has its own traversal of `e.serverMetrics`. -/
def Exporter.Describe (e : Exporter) (first second : Range e.serverMetrics) : List Desc :=
  first.val.map Prod.snd ++ second.val.map Prod.snd
    ++ [etherpadUp, e.totalScrapes.Desc, e.jsonParseFailures.Desc]

/-- The body of the loop of `exportJsonFields`: the `switch` on the field key. -/
def exportJsonField (fieldIdx : String) (metric : Desc) (result : EtherPadMetrics) : List Metric :=
  match fieldIdx with
  | "totalUsers" => [MustNewConstMetric metric ValueType.CounterValue result.TotalUsers]
  | "connects" => [MustNewConstMetric metric ValueType.CounterValue result.Connects.Count]
  | "disconnects" => [MustNewConstMetric metric ValueType.CounterValue result.Disconnects.Count]
  | "pendingEdits" => [MustNewConstMetric metric ValueType.CounterValue result.PendingEdits]
  | "edits" => [MustNewConstMetric metric ValueType.CounterValue result.Edits.Meter.Count]
  | "failedChangesets" =>
    [MustNewConstMetric metric ValueType.CounterValue result.FailedChangesets.Count]
  | "httpRequests" =>
    [MustNewConstMetric metric ValueType.CounterValue result.HttpRequests.Meter.Count]
  | "http500" => [MustNewConstMetric metric ValueType.CounterValue result.Http500.Count]
  | "memoryUsage" => [MustNewConstMetric metric ValueType.GaugeValue result.MemoryUsage]
  | _ => []

/-- The source method `Exporter.exportJsonFields`: the samples it sends, in order, for the
traversal `order` of the map `ms`. -/
def Exporter.exportJsonFields (_e : Exporter) (ms : metrics) (order : Range ms)
    (result : EtherPadMetrics) : List Metric :=
  order.val.flatMap (fun kv => exportJsonField kv.1 kv.2 result)

/-- The source method `Exporter.scrape`: the exporter afterwards, the samples sent, and the
returned `up`. The argument `get` is what `client.Get` returns during this call. -/
def Exporter.scrape (e : Exporter) (order : Range e.serverMetrics)
    (get : Except Error Response) : Exporter × List Metric × Int :=
  let e1 : Exporter := { e with totalScrapes := e.totalScrapes.Inc }
  match e1.fetch get with
  | Except.error _ => (e1, [], 0)
  | Except.ok body =>
    match Decode body with
    | some result => (e1, e1.exportJsonFields e1.serverMetrics order result, 1)
    | none => ({ e1 with jsonParseFailures := e1.jsonParseFailures.Inc }, [], 0)

/-- The source method `Exporter.Collect`: the exporter afterwards and the samples sent, in
order. -/
def Exporter.Collect (e : Exporter) (order : Range e.serverMetrics)
    (get : Except Error Response) : Exporter × List Metric :=
  let r := e.scrape order get
  (r.1, r.2.1 ++ [MustNewConstMetric etherpadUp ValueType.GaugeValue r.2.2,
                  r.1.totalScrapes.toMetric, r.1.jsonParseFailures.toMetric])

/-- The exporter states the program can be in: what `NewExporter` returns, and what any
number of `Collect` calls make of it. -/
inductive Reachable : Exporter → Prop where
  | init (urlParse : String → Except Error URL) (uri : String) (sslVerify : Bool) (timeout : Int)
      (e : Exporter) (h : NewExporter urlParse uri sslVerify timeout = Except.ok e) : Reachable e
  | collect (e : Exporter) (order : Range e.serverMetrics) (get : Except Error Response)
      (h : Reachable e) : Reachable (e.Collect order get).1

/-! ## The outcomes of a scrape cycle -/

/-- The cycle fails at the fetch. -/
def FetchError (e : Exporter) (get : Except Error Response) : Prop :=
  ∃ err, e.fetch get = Except.error err

/-- The fetch succeeds and the decoder reports an error. -/
def DecodeError (e : Exporter) (get : Except Error Response) : Prop :=
  ∃ body, e.fetch get = Except.ok body ∧ Decode body = none

/-- The fetch and the decoding both succeed, with the decoded document `result`. -/
def Success (e : Exporter) (get : Except Error Response) (result : EtherPadMetrics) : Prop :=
  ∃ body, e.fetch get = Except.ok body ∧ Decode body = some result

/-- An exporter for the default scrape address, as `main` builds it; `url.Parse` finds the
scheme `http` in that address. -/
def demoExporter : Exporter :=
  { URI := "http://localhost:9001/stats?",
    fetch := fetchHTTP "http://localhost:9001/stats?" true 5000000000,
    up := NewGauge
      { Namespace := namespace', Name := "up",
        Help := "Was the last scrape of etherpad successful." },
    totalScrapes := NewCounter
      { Namespace := namespace', Name := "exporter_total_scrapes",
        Help := "Current total Etherpad scrapes." },
    jsonParseFailures := NewCounter
      { Namespace := namespace', Name := "exporter_json_parse_failures",
        Help := "Number of errors while parsing json." },
    serverMetrics := serverMetrics }

/-- The descriptor of the scrape counter that `NewExporter` creates. -/
def totalScrapesDesc : Desc :=
  { fqName := "etherpad_exporter_total_scrapes", help := "Current total Etherpad scrapes.",
    variableLabels := [], constLabels := [] }

/-- The descriptor of the parse-failure counter that `NewExporter` creates. -/
def jsonParseFailuresDesc : Desc :=
  { fqName := "etherpad_exporter_json_parse_failures",
    help := "Number of errors while parsing json.", variableLabels := [], constLabels := [] }

/-- The `up` sample with the value `v`. -/
def upSample (v : Int) : Metric :=
  { desc := { fqName := "etherpad_up", help := "Was the last scrape of etherpad successful.",
              variableLabels := [], constLabels := [] },
    valueType := ValueType.GaugeValue, value := v }

/-- The nine business samples the specification lists for a decoded document `r`: for each
catalog key the fully-qualified name, the kind, and the field of `r` that is the value. -/
def businessSamples (r : EtherPadMetrics) : List Metric :=
  [ ⟨⟨"etherpad_server_users_total", "Total users.", [], []⟩,
      ValueType.CounterValue, r.TotalUsers⟩,
    ⟨⟨"etherpad_server_connects_total", "Connects.", [], []⟩,
      ValueType.CounterValue, r.Connects.Count⟩,
    ⟨⟨"etherpad_server_disconnects_total", "Disconnects.", [], []⟩,
      ValueType.CounterValue, r.Disconnects.Count⟩,
    ⟨⟨"etherpad_server_pending_edits_total", "Pending edits.", [], []⟩,
      ValueType.CounterValue, r.PendingEdits⟩,
    ⟨⟨"etherpad_server_edits_total", "Edits.", [], []⟩,
      ValueType.CounterValue, r.Edits.Meter.Count⟩,
    ⟨⟨"etherpad_server_failed_change_sets_total", "Failed change sets.", [], []⟩,
      ValueType.CounterValue, r.FailedChangesets.Count⟩,
    ⟨⟨"etherpad_server_http_requests_total", "Http requests.", [], []⟩,
      ValueType.CounterValue, r.HttpRequests.Meter.Count⟩,
    ⟨⟨"etherpad_server_http_500_total", "Http 500.", [], []⟩,
      ValueType.CounterValue, r.Http500.Count⟩,
    ⟨⟨"etherpad_server_memory_usage", "Memory usage.", [], []⟩,
      ValueType.GaugeValue, r.MemoryUsage⟩ ]

/-- The response of the worked example: status 200 with the example document as body. -/
def exampleGet : Except Error Response :=
  Except.ok { StatusCode := 200, Body := ReadCloser.json exampleDoc }

/-- The document the decoder makes of the example body. -/
def exampleResult : EtherPadMetrics :=
  { EtherPadMetrics.zero with TotalUsers := 5, Connects := ⟨10⟩ }

/-- A business sample: its descriptor is one of the nine of the catalog. -/
def IsBusiness (m : Metric) : Prop := m.desc ∈ serverMetrics.map Prod.snd

/-- The order in which `up` with value 1 is in the sink before every business sample. -/
def UpBeforeBusiness (out : List Metric) : Prop :=
  ∀ (i j : Nat) (m : Metric), out[i]? = some (upSample 1) → out[j]? = some m → IsBusiness m → i < j

/-- The order in which every business sample is in the sink before `up` with value 1. -/
def BusinessBeforeUp (out : List Metric) : Prop :=
  ∀ (i j : Nat) (m : Metric), out[i]? = some (upSample 1) → out[j]? = some m → IsBusiness m → j < i

/-- The descriptors `Describe` sends when both loops visit the catalog as it is listed. -/
def describedListed : List Desc :=
  serverMetrics.map Prod.snd ++ serverMetrics.map Prod.snd
    ++ [etherpadUp, totalScrapesDesc, jsonParseFailuresDesc]

/-- The specification's table of exported metrics: fully-qualified name and kind. -/
def exportedMetrics : List (String × ValueType) :=
  [ ("etherpad_up", ValueType.GaugeValue),
    ("etherpad_exporter_total_scrapes", ValueType.CounterValue),
    ("etherpad_exporter_json_parse_failures", ValueType.CounterValue),
    ("etherpad_server_users_total", ValueType.CounterValue),
    ("etherpad_server_connects_total", ValueType.CounterValue),
    ("etherpad_server_disconnects_total", ValueType.CounterValue),
    ("etherpad_server_pending_edits_total", ValueType.CounterValue),
    ("etherpad_server_edits_total", ValueType.CounterValue),
    ("etherpad_server_failed_change_sets_total", ValueType.CounterValue),
    ("etherpad_server_http_requests_total", ValueType.CounterValue),
    ("etherpad_server_http_500_total", ValueType.CounterValue),
    ("etherpad_server_memory_usage", ValueType.GaugeValue) ]

/-- A status document whose only key is `memoryUsage` written with the long s U+017F. -/
def longEssDoc : Json := Json.obj [("memoryUſage", Json.num 7)]

/-- A status document that gives `totalUsers`, written with the long s, a string value. -/
def longEssStringDoc : Json := Json.obj [("totalUſers", Json.str "x")]

/-- A status document that gives `http500.count` with the key of the object in capitals. -/
def capitalsDoc : Json := Json.obj [("HTTP500", Json.obj [("COUNT", Json.num 3)])]

/-! ## One step of the exporter, outcome by outcome -/

theorem scrape_of_fetch_error {e : Exporter} {order : Range e.serverMetrics}
    {get : Except Error Response} {err : Error} (h : e.fetch get = Except.error err) :
    e.scrape order get = ({ e with totalScrapes := e.totalScrapes.Inc }, [], 0) := by
  simp [Exporter.scrape, h]

theorem scrape_of_decode_error {e : Exporter} {order : Range e.serverMetrics}
    {get : Except Error Response} {body : ReadCloser} (h : e.fetch get = Except.ok body)
    (hd : Decode body = none) :
    e.scrape order get =
      ({ e with totalScrapes := e.totalScrapes.Inc, jsonParseFailures := e.jsonParseFailures.Inc },
        [], 0) := by
  simp [Exporter.scrape, h, hd]

theorem scrape_of_success {e : Exporter} {order : Range e.serverMetrics}
    {get : Except Error Response} {body : ReadCloser} {result : EtherPadMetrics}
    (h : e.fetch get = Except.ok body) (hd : Decode body = some result) :
    e.scrape order get =
      ({ e with totalScrapes := e.totalScrapes.Inc },
        e.exportJsonFields e.serverMetrics order result, 1) := by
  simp [Exporter.scrape, h, hd, Exporter.exportJsonFields]

/-- The three outcomes cover every cycle. -/
theorem outcome_cases (e : Exporter) (get : Except Error Response) :
    FetchError e get ∨ DecodeError e get ∨ ∃ result, Success e get result := by
  cases h : e.fetch get with
  | error err => exact Or.inl ⟨err, h⟩
  | ok body =>
    cases hd : Decode body with
    | none => exact Or.inr (Or.inl ⟨body, h, hd⟩)
    | some result => exact Or.inr (Or.inr ⟨result, body, h, hd⟩)

theorem not_decodeError_of_fetchError {e : Exporter} {get : Except Error Response}
    (h : FetchError e get) : ¬ DecodeError e get := by
  rintro ⟨body, hb, -⟩
  obtain ⟨err, he⟩ := h
  rw [he] at hb
  cases hb

theorem not_success_of_fetchError {e : Exporter} {get : Except Error Response}
    (h : FetchError e get) : ¬ ∃ result, Success e get result := by
  rintro ⟨result, body, hb, -⟩
  obtain ⟨err, he⟩ := h
  rw [he] at hb
  cases hb

theorem not_success_of_decodeError {e : Exporter} {get : Except Error Response}
    (h : DecodeError e get) : ¬ ∃ result, Success e get result := by
  rintro ⟨result, body, hb, hd⟩
  obtain ⟨body', hb', hd'⟩ := h
  rw [hb'] at hb
  cases hb
  rw [hd'] at hd
  cases hd

/-- What a cycle leaves of the exporter: the catalog and the descriptors of the two counters
stay, and the scrape counter is one more. -/
theorem collect_state (e : Exporter) (order : Range e.serverMetrics)
    (get : Except Error Response) :
    (e.Collect order get).1.serverMetrics = e.serverMetrics
      ∧ (e.Collect order get).1.totalScrapes.desc = e.totalScrapes.desc
      ∧ (e.Collect order get).1.jsonParseFailures.desc = e.jsonParseFailures.desc
      ∧ (e.Collect order get).1.totalScrapes.val = e.totalScrapes.val + 1 := by
  rcases outcome_cases e get with ⟨err, h⟩ | ⟨body, h, hd⟩ | ⟨result, body, h, hd⟩
  · simp [Exporter.Collect, scrape_of_fetch_error h, Counter.Inc]
  · simp [Exporter.Collect, scrape_of_decode_error h hd, Counter.Inc]
  · simp [Exporter.Collect, scrape_of_success h hd, Counter.Inc]

/-! ## Key matching under case folding -/

/-- A key written with the long s matches the field, and its value is stored. -/
theorem decode_longEssDoc :
    fieldMatch "MemoryUsage" "memoryUſage" = true
      ∧ longEssDoc.present ["MemoryUsage"] = true
      ∧ Decode (ReadCloser.json longEssDoc) = some { EtherPadMetrics.zero with MemoryUsage := 7 } := by
  decide

/-- A key written with the long s matches the field, and a string value for it is a type error
of the decoder. -/
theorem decode_longEssStringDoc :
    fieldMatch "TotalUsers" "totalUſers" = true
      ∧ Decode (ReadCloser.json longEssStringDoc) = none := by
  decide

/-- Keys match whatever the case of their letters; a key that differs in another character
does not match. -/
theorem decode_capitalsDoc :
    Decode (ReadCloser.json capitalsDoc) = some { EtherPadMetrics.zero with Http500 := ⟨3⟩ }
      ∧ fieldMatch "Http500" "http_500" = false
      ∧ fieldMatch "Count" "ſount" = false
      ∧ fieldMatch "TotalUsers" "totalUsers" = true := by
  decide

/-! ## What the decoder leaves untouched -/

theorem newExporter_fields {urlParse : String → Except Error URL} {uri : String}
    {sslVerify : Bool} {timeout : Int} {e : Exporter}
    (h : NewExporter urlParse uri sslVerify timeout = Except.ok e) :
    e.serverMetrics = serverMetrics ∧ e.totalScrapes = ⟨totalScrapesDesc, 0⟩
      ∧ e.jsonParseFailures = ⟨jsonParseFailuresDesc, 0⟩
      ∧ e.fetch = fetchHTTP uri sslVerify timeout := by
  unfold NewExporter at h
  cases hu : urlParse uri with
  | error err => rw [hu] at h; cases h
  | ok u =>
    rw [hu] at h
    by_cases hs : u.Scheme = "http" ∨ u.Scheme = "https"
    · simp only [if_pos hs] at h
      cases h
      exact ⟨rfl, rfl, rfl, rfl⟩
    · simp only [if_neg hs] at h
      cases h

/-- Every reachable exporter holds the catalog and the two counters `NewExporter` made. -/
theorem reachable_inv {e : Exporter} (h : Reachable e) :
    e.serverMetrics = serverMetrics ∧ e.totalScrapes.desc = totalScrapesDesc
      ∧ e.jsonParseFailures.desc = jsonParseFailuresDesc := by
  induction h with
  | init urlParse uri sslVerify timeout e h =>
    obtain ⟨h1, h2, h3, -⟩ := newExporter_fields h
    rw [h1, h2, h3]
    exact ⟨rfl, rfl, rfl⟩
  | collect e order get _ ih =>
    obtain ⟨h1, h2, h3, -⟩ := collect_state e order get
    rw [h1, h2, h3]
    exact ih

theorem reachable_demoExporter : Reachable demoExporter :=
  Reachable.init (fun _ => Except.ok ⟨"http"⟩) "http://localhost:9001/stats?" true 5000000000
    demoExporter rfl

theorem serverMetrics_export (r : EtherPadMetrics) :
    serverMetrics.flatMap (fun kv => exportJsonField kv.1 kv.2 r) = businessSamples r := by
  rfl

/-- For a reachable exporter the samples of `exportJsonFields` are the nine business samples,
in the order of the traversal. -/
theorem export_perm {e : Exporter} (he : Reachable e) (order : Range e.serverMetrics)
    (r : EtherPadMetrics) :
    (e.exportJsonFields e.serverMetrics order r).Perm (businessSamples r) := by
  have heq : e.serverMetrics.Perm serverMetrics := by rw [(reachable_inv he).1]
  have hp : order.val.Perm serverMetrics := order.property.trans heq
  have := List.Perm.flatMap_right (fun kv => exportJsonField kv.1 kv.2 r) hp
  rw [serverMetrics_export] at this
  exact this

theorem success_example : Success demoExporter exampleGet exampleResult :=
  ⟨ReadCloser.json exampleDoc, rfl, by decide⟩

theorem fetchError_example :
    FetchError demoExporter (Except.ok { StatusCode := 503, Body := ReadCloser.malformed }) :=
  ⟨Error.httpStatus 503, rfl⟩

theorem decodeError_example :
    DecodeError demoExporter (Except.ok { StatusCode := 200, Body := ReadCloser.malformed }) :=
  ⟨ReadCloser.malformed, rfl, rfl⟩

/-- The parse-failure counter after a cycle, outcome by outcome. -/
theorem collect_jsonParseFailures_val (e : Exporter) (order : Range e.serverMetrics)
    (get : Except Error Response) :
    (FetchError e get →
        (e.Collect order get).1.jsonParseFailures.val = e.jsonParseFailures.val)
      ∧ (DecodeError e get →
        (e.Collect order get).1.jsonParseFailures.val = e.jsonParseFailures.val + 1)
      ∧ ((∃ r, Success e get r) →
        (e.Collect order get).1.jsonParseFailures.val = e.jsonParseFailures.val) := by
  refine ⟨?_, ?_, ?_⟩
  · rintro ⟨err, h⟩
    simp [Exporter.Collect, scrape_of_fetch_error h]
  · rintro ⟨body, h, hd⟩
    simp [Exporter.Collect, scrape_of_decode_error h hd, Counter.Inc]
  · rintro ⟨r, body, h, hd⟩
    simp [Exporter.Collect, scrape_of_success h hd]

/-- What a successful cycle returns. -/
theorem collect_of_success (e : Exporter) (order : Range e.serverMetrics)
    (get : Except Error Response) (r : EtherPadMetrics) (hs : Success e get r) :
    (e.Collect order get).2 =
      e.exportJsonFields e.serverMetrics order r
        ++ [ upSample 1, (e.Collect order get).1.totalScrapes.toMetric,
             (e.Collect order get).1.jsonParseFailures.toMetric ] := by
  obtain ⟨body, h, hd⟩ := hs
  simp [Exporter.Collect, scrape_of_success h hd]
  rfl

/-- The two counter samples of a cycle of a reachable exporter carry the descriptors that
`NewExporter` gave the counters. -/
theorem collect_counter_descs {e : Exporter} (he : Reachable e) (order : Range e.serverMetrics)
    (get : Except Error Response) :
    (e.Collect order get).1.totalScrapes.toMetric.desc = totalScrapesDesc
      ∧ (e.Collect order get).1.jsonParseFailures.toMetric.desc = jsonParseFailuresDesc := by
  obtain ⟨-, hts, hjp, -⟩ := collect_state e order get
  obtain ⟨-, h2, h3⟩ := reachable_inv he
  exact ⟨by simp [Counter.toMetric, hts, h2], by simp [Counter.toMetric, hjp, h3]⟩

theorem isBusiness_of_mem_businessSamples {r : EtherPadMetrics} {m : Metric}
    (hm : m ∈ businessSamples r) : IsBusiness m := by
  have h : m.desc ∈ (businessSamples r).map Metric.desc := List.mem_map_of_mem Metric.desc hm
  exact h

/-- Name and kind of the samples a cycle of a reachable exporter sends after the business
samples. -/
theorem collect_counter_pairs {e : Exporter} (he : Reachable e) (order : Range e.serverMetrics)
    (get : Except Error Response) :
    ((e.Collect order get).1.totalScrapes.toMetric.desc.fqName,
        (e.Collect order get).1.totalScrapes.toMetric.valueType) =
        ("etherpad_exporter_total_scrapes", ValueType.CounterValue)
      ∧ ((e.Collect order get).1.jsonParseFailures.toMetric.desc.fqName,
        (e.Collect order get).1.jsonParseFailures.toMetric.valueType) =
        ("etherpad_exporter_json_parse_failures", ValueType.CounterValue) := by
  obtain ⟨h1, h2⟩ := collect_counter_descs he order get
  rw [h1, h2]
  exact ⟨rfl, rfl⟩

/-- What a failed cycle sends. -/
theorem collect_of_failure (e : Exporter) (order : Range e.serverMetrics)
    (get : Except Error Response) (hfail : FetchError e get ∨ DecodeError e get) :
    (e.Collect order get).2 =
      [ upSample 0, (e.Collect order get).1.totalScrapes.toMetric,
        (e.Collect order get).1.jsonParseFailures.toMetric ] := by
  rcases hfail with ⟨err, h⟩ | ⟨body, h, hd⟩
  · simp [Exporter.Collect, scrape_of_fetch_error h]
    rfl
  · simp [Exporter.Collect, scrape_of_decode_error h hd]
    rfl

/-! ## The claims -/

/-- C1: whatever the state of the exporter and whatever the outcome of one `Collect` call,
the total-scrapes counter after the call is its value before the call plus one, and exactly
one of the three outcomes (fetch error, decode error, success) occurs. -/
theorem collect_totalScrapes_plus_one (e : Exporter) (order : Range e.serverMetrics)
    (get : Except Error Response) :
    (e.Collect order get).1.totalScrapes.val = e.totalScrapes.val + 1
      ∧ ((FetchError e get ∧ ¬ DecodeError e get ∧ ¬ ∃ r, Success e get r)
        ∨ (¬ FetchError e get ∧ DecodeError e get ∧ ¬ ∃ r, Success e get r)
        ∨ (¬ FetchError e get ∧ ¬ DecodeError e get ∧ ∃ r, Success e get r)) := by
  refine ⟨(collect_state e order get).2.2.2, ?_⟩
  rcases outcome_cases e get with hf | hd | hs
  · exact Or.inl ⟨hf, not_decodeError_of_fetchError hf, not_success_of_fetchError hf⟩
  · exact Or.inr (Or.inl
      ⟨fun hf => not_decodeError_of_fetchError hf hd, hd, not_success_of_decodeError hd⟩)
  · exact Or.inr (Or.inr
      ⟨fun hf => not_success_of_fetchError hf hs, fun hd => not_success_of_decodeError hd hs, hs⟩)

/-- C2: whatever the state of the exporter, one `Collect` call raises the JSON-parse-failures
counter by exactly one if and only if the fetch succeeded and the decoding failed; on a fetch
error and on a successful scrape the counter keeps its value. -/
theorem collect_jsonParseFailures_iff (e : Exporter) (order : Range e.serverMetrics)
    (get : Except Error Response) :
    ((e.Collect order get).1.jsonParseFailures.val = e.jsonParseFailures.val + 1
        ↔ DecodeError e get)
      ∧ (FetchError e get →
        (e.Collect order get).1.jsonParseFailures.val = e.jsonParseFailures.val)
      ∧ ((∃ r, Success e get r) →
        (e.Collect order get).1.jsonParseFailures.val = e.jsonParseFailures.val) := by
  obtain ⟨hF, hD, hS⟩ := collect_jsonParseFailures_val e order get
  refine ⟨⟨fun hval => ?_, hD⟩, hF, hS⟩
  rcases outcome_cases e get with hf | hd | hs
  · rw [hF hf] at hval
    omega
  · exact hd
  · rw [hS hs] at hval
    omega

/-- C4: when the cycle of a `Collect` call fails, at the fetch or at the decoding, the samples
sent are exactly `up` with value 0, the total-scrapes counter and the parse-failures counter,
in that order; for an exporter the program can be in, none of them carries a descriptor of the
business catalog. -/
theorem collect_failure_samples (e : Exporter) (order : Range e.serverMetrics)
    (get : Except Error Response) (hfail : FetchError e get ∨ DecodeError e get) :
    (e.Collect order get).2 =
        [ upSample 0,
          (e.Collect order get).1.totalScrapes.toMetric,
          (e.Collect order get).1.jsonParseFailures.toMetric ]
      ∧ (e.Collect order get).1.totalScrapes.toMetric =
          ⟨e.totalScrapes.desc, ValueType.CounterValue, (e.totalScrapes.val : Int) + 1⟩
      ∧ (e.Collect order get).1.jsonParseFailures.toMetric.desc = e.jsonParseFailures.desc
      ∧ (Reachable e →
          ∀ m ∈ (e.Collect order get).2, m.desc ∉ serverMetrics.map Prod.snd) := by
  have hout := collect_of_failure e order get hfail
  obtain ⟨-, hts, hjp, hval⟩ := collect_state e order get
  refine ⟨hout, ?_, ?_, ?_⟩
  · simp [Counter.toMetric, hts, hval]
  · simp [Counter.toMetric, hjp]
  · intro he m hm
    obtain ⟨-, h2, h3⟩ := reachable_inv he
    rw [hout] at hm
    simp only [List.mem_cons, List.mem_singleton, List.not_mem_nil, or_false] at hm
    rcases hm with rfl | rfl | rfl
    · decide
    · simp only [Counter.toMetric, hts, h2]
      decide
    · simp only [Counter.toMetric, hjp, h3]
      decide

/-- C4, at a fetch that ends with status 503 and at a body that is not JSON: the three
samples, with the scrape counter at 1 and the parse-failure counter at 0 and at 1. -/
theorem collect_failure_samples_witness :
    (FetchError demoExporter (Except.ok { StatusCode := 503, Body := ReadCloser.malformed })
        ∨ DecodeError demoExporter
          (Except.ok { StatusCode := 503, Body := ReadCloser.malformed }))
      ∧ (demoExporter.Collect (Range.listed _)
          (Except.ok { StatusCode := 503, Body := ReadCloser.malformed })).2 =
        [ upSample 0, ⟨totalScrapesDesc, ValueType.CounterValue, 1⟩,
          ⟨jsonParseFailuresDesc, ValueType.CounterValue, 0⟩ ]
      ∧ (demoExporter.Collect (Range.listed _)
          (Except.ok { StatusCode := 200, Body := ReadCloser.malformed })).2 =
        [ upSample 0, ⟨totalScrapesDesc, ValueType.CounterValue, 1⟩,
          ⟨jsonParseFailuresDesc, ValueType.CounterValue, 1⟩ ] :=
  ⟨Or.inl fetchError_example,
    (collect_failure_samples demoExporter (Range.listed _)
      (Except.ok { StatusCode := 503, Body := ReadCloser.malformed })
      (Or.inl fetchError_example)).1.trans rfl,
    (collect_failure_samples demoExporter (Range.listed _)
      (Except.ok { StatusCode := 200, Body := ReadCloser.malformed })
      (Or.inr decodeError_example)).1.trans rfl⟩

/-- C5: whatever the state of the exporter and the outcome of `Collect`, the descriptor of
every sample `Collect` sends (business samples, `up`, total-scrapes, parse-failures) is among
the descriptors `Describe` sends, called before the cycle or after it. -/
theorem collect_desc_mem_describe (e : Exporter) (order : Range e.serverMetrics)
    (get : Except Error Response) :
    (∀ (first second : Range e.serverMetrics), ∀ m ∈ (e.Collect order get).2,
        m.desc ∈ e.Describe first second)
      ∧ (∀ (first second : Range (e.Collect order get).1.serverMetrics),
          ∀ m ∈ (e.Collect order get).2,
            m.desc ∈ (e.Collect order get).1.Describe first second) := by
  obtain ⟨hsm, hts, hjp, -⟩ := collect_state e order get
  have key : ∀ m ∈ (e.Collect order get).2,
      m.desc ∈ e.serverMetrics.map Prod.snd ∨ m.desc = etherpadUp
        ∨ m.desc = e.totalScrapes.desc ∨ m.desc = e.jsonParseFailures.desc := by
    intro m hm
    have hmeta : ∀ x ∈ [ MustNewConstMetric etherpadUp ValueType.GaugeValue
          (e.scrape order get).2.2, (e.Collect order get).1.totalScrapes.toMetric,
          (e.Collect order get).1.jsonParseFailures.toMetric ],
        x.desc = etherpadUp ∨ x.desc = e.totalScrapes.desc
          ∨ x.desc = e.jsonParseFailures.desc := by
      intro x hx
      simp only [List.mem_cons, List.mem_singleton, List.not_mem_nil, or_false] at hx
      rcases hx with rfl | rfl | rfl
      · exact Or.inl rfl
      · exact Or.inr (Or.inl hts)
      · exact Or.inr (Or.inr hjp)
    have hsplit : m ∈ (e.scrape order get).2.1 ∨
        m ∈ [ MustNewConstMetric etherpadUp ValueType.GaugeValue (e.scrape order get).2.2,
          (e.Collect order get).1.totalScrapes.toMetric,
          (e.Collect order get).1.jsonParseFailures.toMetric ] := List.mem_append.mp hm
    rcases hsplit with hb | hx
    · left
      rcases outcome_cases e get with ⟨err, h⟩ | ⟨body, h, hd⟩ | ⟨r, body, h, hd⟩
      · rw [scrape_of_fetch_error h] at hb
        cases hb
      · rw [scrape_of_decode_error h hd] at hb
        cases hb
      · rw [scrape_of_success h hd] at hb
        obtain ⟨kv, hkv, hmkv⟩ := List.mem_flatMap.mp hb
        have hkv' : kv ∈ e.serverMetrics := order.property.mem_iff.mp hkv
        have hdesc : m.desc = kv.2 := by
          unfold exportJsonField at hmkv
          split at hmkv <;> simp [MustNewConstMetric] at hmkv <;> rw [hmkv]
        rw [hdesc]
        exact List.mem_map_of_mem Prod.snd hkv'
    · exact Or.inr (hmeta m hx)
  constructor
  · intro first second m hm
    unfold Exporter.Describe
    rcases key m hm with h | h | h | h
    · obtain ⟨kv, hkv, hkv2⟩ := List.mem_map.mp h
      have : kv ∈ first.val := first.property.mem_iff.mpr hkv
      simp only [List.mem_append, List.mem_map]
      exact Or.inl (Or.inl ⟨kv, this, hkv2⟩)
    · simp [h]
    · simp [h, Counter.Desc]
    · simp [h, Counter.Desc]
  · intro first second m hm
    unfold Exporter.Describe
    rcases key m hm with h | h | h | h
    · obtain ⟨kv, hkv, hkv2⟩ := List.mem_map.mp h
      have : kv ∈ first.val := first.property.mem_iff.mpr (hsm ▸ hkv)
      simp only [List.mem_append, List.mem_map]
      exact Or.inl (Or.inl ⟨kv, this, hkv2⟩)
    · simp [h]
    · simp [h, Counter.Desc, hts]
    · simp [h, Counter.Desc, hjp]

/-- C9: in every state the program can be in, whatever the counters hold and whatever cycles
went before, `Describe` sends the same multiset of descriptors: each of the nine catalog
descriptors exactly twice, and the `up`, total-scrapes and parse-failures descriptors exactly
once each, 21 sends in all. -/
theorem describe_sends (e : Exporter) (he : Reachable e) (first second : Range e.serverMetrics) :
    (e.Describe first second).Perm describedListed
      ∧ (e.Describe first second).length = 21
      ∧ (∀ d ∈ serverMetrics.map Prod.snd, (e.Describe first second).count d = 2)
      ∧ (serverMetrics.map Prod.snd).Nodup
      ∧ (serverMetrics.map Prod.snd).length = 9
      ∧ (e.Describe first second).count etherpadUp = 1
      ∧ (e.Describe first second).count totalScrapesDesc = 1
      ∧ (e.Describe first second).count jsonParseFailuresDesc = 1 := by
  obtain ⟨h1, h2, h3⟩ := reachable_inv he
  have heq : e.serverMetrics.Perm serverMetrics := by rw [h1]
  have hp : (e.Describe first second).Perm describedListed := by
    unfold Exporter.Describe describedListed
    refine List.Perm.append (List.Perm.append ?_ ?_) ?_
    · exact (first.property.trans heq).map Prod.snd
    · exact (second.property.trans heq).map Prod.snd
    · simp [Counter.Desc, h2, h3]
  refine ⟨hp, ?_, ?_, by decide, by decide, ?_, ?_, ?_⟩
  · rw [hp.length_eq]
    decide
  · intro d hd
    rw [hp.count_eq]
    revert d
    decide
  · rw [hp.count_eq]
    decide
  · rw [hp.count_eq]
    decide
  · rw [hp.count_eq]
    decide

/-- C9, at the exporter for the default address after one failed cycle. -/
theorem describe_sends_witness :
    Reachable (demoExporter.Collect (Range.listed _) (Except.error (Error.external "timeout"))).1
      ∧ ((demoExporter.Collect (Range.listed _)
            (Except.error (Error.external "timeout"))).1.Describe
          (Range.listed _) (Range.listed _)).length = 21 :=
  ⟨Reachable.collect demoExporter (Range.listed _) (Except.error (Error.external "timeout"))
      reachable_demoExporter,
    (describe_sends _
      (Reachable.collect demoExporter (Range.listed _) (Except.error (Error.external "timeout"))
        reachable_demoExporter)
      (Range.listed _) (Range.listed _)).2.1⟩

/-- C6: the exported metric identities are exactly `etherpad_up`,
`etherpad_exporter_total_scrapes`, `etherpad_exporter_json_parse_failures` and, for the nine
catalog keys, `etherpad_server_users_total` (totalUsers), `connects_total` (connects),
`disconnects_total` (disconnects), `pending_edits_total` (pendingEdits), `edits_total` (edits),
`failed_change_sets_total` (failedChangesets), `http_requests_total` (httpRequests),
`http_500_total` (http500), `memory_usage` (memoryUsage); the catalog keys are pairwise
distinct; and of the nine business samples `memory_usage` is sent with gauge kind and the other
eight with counter kind. -/
theorem exported_identities (e : Exporter) (he : Reachable e)
    (first second order : Range e.serverMetrics) (get : Except Error Response) :
    serverMetrics.map (fun kv => (kv.1, kv.2.fqName)) =
        [ ("totalUsers", "etherpad_server_users_total"),
          ("connects", "etherpad_server_connects_total"),
          ("disconnects", "etherpad_server_disconnects_total"),
          ("pendingEdits", "etherpad_server_pending_edits_total"),
          ("edits", "etherpad_server_edits_total"),
          ("failedChangesets", "etherpad_server_failed_change_sets_total"),
          ("httpRequests", "etherpad_server_http_requests_total"),
          ("http500", "etherpad_server_http_500_total"),
          ("memoryUsage", "etherpad_server_memory_usage") ]
      ∧ (serverMetrics.map Prod.fst).Nodup
      ∧ (exportedMetrics.map Prod.fst).Nodup
      ∧ (∀ name, name ∈ (e.Describe first second).map Desc.fqName
          ↔ name ∈ exportedMetrics.map Prod.fst)
      ∧ (∀ m ∈ (e.Collect order get).2, (m.desc.fqName, m.valueType) ∈ exportedMetrics)
      ∧ (∀ r, Success e get r →
          ((e.Collect order get).2.map (fun m => (m.desc.fqName, m.valueType))).Perm
            exportedMetrics) := by
  obtain ⟨hts, hjp⟩ := collect_counter_pairs he order get
  obtain ⟨h1, h2, h3⟩ := reachable_inv he
  have hsucc : ∀ r, Success e get r →
      ((e.Collect order get).2.map (fun m => (m.desc.fqName, m.valueType))).Perm
        exportedMetrics := by
    intro r hs
    have hperm := (List.Perm.append (export_perm he order r)
      (List.Perm.refl [ upSample 1, (e.Collect order get).1.totalScrapes.toMetric,
        (e.Collect order get).1.jsonParseFailures.toMetric ])).map
      (fun m => (m.desc.fqName, m.valueType))
    rw [← collect_of_success e order get r hs] at hperm
    refine hperm.trans ?_
    rw [List.map_append, List.map_cons, List.map_cons, List.map_singleton, hts, hjp]
    exact (List.perm_append_comm :
      (List.map (fun m => (m.desc.fqName, m.valueType)) (businessSamples r)
        ++ [ ("etherpad_up", ValueType.GaugeValue),
             ("etherpad_exporter_total_scrapes", ValueType.CounterValue),
             ("etherpad_exporter_json_parse_failures", ValueType.CounterValue) ]).Perm _)
  refine ⟨rfl, by decide, by decide, ?_, ?_, hsucc⟩
  · intro name
    have heq : e.serverMetrics.Perm serverMetrics := by rw [h1]
    have hp : ((e.Describe first second).map Desc.fqName).Perm
        (describedListed.map Desc.fqName) := by
      refine List.Perm.map _ ?_
      unfold Exporter.Describe describedListed
      refine List.Perm.append (List.Perm.append ?_ ?_) ?_
      · exact (first.property.trans heq).map Prod.snd
      · exact (second.property.trans heq).map Prod.snd
      · simp [Counter.Desc, h2, h3]
    rw [hp.mem_iff]
    constructor
    · intro hn
      have hall : ∀ x ∈ describedListed.map Desc.fqName, x ∈ exportedMetrics.map Prod.fst := by
        decide
      exact hall name hn
    · intro hn
      have hall : ∀ x ∈ exportedMetrics.map Prod.fst, x ∈ describedListed.map Desc.fqName := by
        decide
      exact hall name hn
  · intro m hm
    rcases outcome_cases e get with hf | hd | ⟨r, hs⟩
    · have hout := collect_of_failure e order get (Or.inl hf)
      rw [hout] at hm
      simp only [List.mem_cons, List.mem_singleton, List.not_mem_nil, or_false] at hm
      rcases hm with rfl | rfl | rfl
      · decide
      · rw [hts]; decide
      · rw [hjp]; decide
    · have hout := collect_of_failure e order get (Or.inr hd)
      rw [hout] at hm
      simp only [List.mem_cons, List.mem_singleton, List.not_mem_nil, or_false] at hm
      rcases hm with rfl | rfl | rfl
      · decide
      · rw [hts]; decide
      · rw [hjp]; decide
    · exact (hsucc r hs).mem_iff.mp
        (List.mem_map_of_mem (fun m => (m.desc.fqName, m.valueType)) hm)

/-- C6, at the exporter for the default address and the worked example: the samples of the
cycle carry the twelve names with their kinds. -/
theorem exported_identities_witness :
    Reachable demoExporter
      ∧ ((demoExporter.Collect (Range.listed _) exampleGet).2.map
          (fun m => (m.desc.fqName, m.valueType))).Perm exportedMetrics :=
  ⟨reachable_demoExporter,
    (exported_identities demoExporter reachable_demoExporter (Range.listed _) (Range.listed _)
      (Range.listed _) exampleGet).2.2.2.2.2 exampleResult success_example⟩

/-- C7: the fetcher returns the response body if and only if `client.Get` returned no error and
the status code `s` has `200 <= s <= 299`; for every other status code it returns an error
whose message contains the decimal digits of that code; and when `client.Get` returned an
error it returns that error. -/
theorem fetchHTTP_result (uri : String) (sslVerify : Bool) (timeout : Int)
    (get : Except Error Response) :
    ((∃ body, fetchHTTP uri sslVerify timeout get = Except.ok body)
        ↔ ∃ resp, get = Except.ok resp ∧ 200 ≤ resp.StatusCode ∧ resp.StatusCode ≤ 299)
      ∧ (∀ resp, get = Except.ok resp → 200 ≤ resp.StatusCode → resp.StatusCode ≤ 299 →
          fetchHTTP uri sslVerify timeout get = Except.ok resp.Body)
      ∧ (∀ resp, get = Except.ok resp → ¬ (200 ≤ resp.StatusCode ∧ resp.StatusCode ≤ 299) →
          fetchHTTP uri sslVerify timeout get = Except.error (Error.httpStatus resp.StatusCode)
            ∧ ∀ quote : String → String, ∃ pre post : String,
              (Error.httpStatus resp.StatusCode).Error quote
                = pre ++ toString resp.StatusCode ++ post)
      ∧ (∀ err, get = Except.error err →
          fetchHTTP uri sslVerify timeout get = Except.error err) := by
  have hok : ∀ resp : Response, 200 ≤ resp.StatusCode → resp.StatusCode ≤ 299 →
      fetchHTTP uri sslVerify timeout (Except.ok resp) = Except.ok resp.Body := by
    intro resp h1 h2
    have hc : resp.StatusCode ≥ 200 ∧ resp.StatusCode < 300 := ⟨h1, by omega⟩
    simp only [fetchHTTP, not_not.mpr hc, if_false]
  have hbad : ∀ resp : Response, ¬ (200 ≤ resp.StatusCode ∧ resp.StatusCode ≤ 299) →
      fetchHTTP uri sslVerify timeout (Except.ok resp)
        = Except.error (Error.httpStatus resp.StatusCode) := by
    intro resp h
    have hc : ¬ (resp.StatusCode ≥ 200 ∧ resp.StatusCode < 300) := by
      intro hc
      exact h ⟨hc.1, by omega⟩
    simp only [fetchHTTP, hc, not_false_eq_true, if_true]
  refine ⟨⟨?_, ?_⟩, ?_, ?_, ?_⟩
  · rintro ⟨body, hbody⟩
    cases get with
    | error err => cases hbody
    | ok resp =>
      by_cases hr : 200 ≤ resp.StatusCode ∧ resp.StatusCode ≤ 299
      · exact ⟨resp, rfl, hr⟩
      · rw [hbad resp hr] at hbody
        cases hbody
  · rintro ⟨resp, rfl, h1, h2⟩
    exact ⟨resp.Body, hok resp h1 h2⟩
  · rintro resp rfl h1 h2
    exact hok resp h1 h2
  · rintro resp rfl h
    refine ⟨hbad resp h, fun quote => ⟨"HTTP status ", "", ?_⟩⟩
    simp [Error.Error]
  · rintro err rfl
    rfl

/-- C8: `NewExporter` returns an exporter if and only if the address parses and its scheme is
`http` or `https`; for every other scheme, the empty one included, it returns an error and no
exporter, and so it does when the address does not parse. -/
theorem newExporter_iff (urlParse : String → Except Error URL) (uri : String) (sslVerify : Bool)
    (timeout : Int) :
    ((∃ e, NewExporter urlParse uri sslVerify timeout = Except.ok e)
        ↔ ∃ u, urlParse uri = Except.ok u ∧ (u.Scheme = "http" ∨ u.Scheme = "https"))
      ∧ (∀ u, urlParse uri = Except.ok u → u.Scheme ≠ "http" → u.Scheme ≠ "https" →
          NewExporter urlParse uri sslVerify timeout
            = Except.error (Error.unsupportedScheme u.Scheme))
      ∧ (∀ u, urlParse uri = Except.ok u → u.Scheme = "" →
          NewExporter urlParse uri sslVerify timeout = Except.error (Error.unsupportedScheme ""))
      ∧ (∀ err, urlParse uri = Except.error err →
          NewExporter urlParse uri sslVerify timeout = Except.error err) := by
  have hbad : ∀ u, urlParse uri = Except.ok u → u.Scheme ≠ "http" → u.Scheme ≠ "https" →
      NewExporter urlParse uri sslVerify timeout
        = Except.error (Error.unsupportedScheme u.Scheme) := by
    intro u hu h1 h2
    have hs : ¬ (u.Scheme = "http" ∨ u.Scheme = "https") := by
      rintro (h | h)
      · exact h1 h
      · exact h2 h
    simp only [NewExporter, hu, if_neg hs]
  refine ⟨⟨?_, ?_⟩, hbad, ?_, ?_⟩
  · rintro ⟨e, he⟩
    cases hu : urlParse uri with
    | error err =>
      simp only [NewExporter, hu] at he
      cases he
    | ok u =>
      by_cases hs : u.Scheme = "http" ∨ u.Scheme = "https"
      · exact ⟨u, rfl, hs⟩
      · rw [hbad u hu (fun h => hs (Or.inl h)) (fun h => hs (Or.inr h))] at he
        cases he
  · rintro ⟨u, hu, hs⟩
    simp only [NewExporter, hu, if_pos hs]
    exact ⟨_, rfl⟩
  · intro u hu hempty
    have := hbad u hu (by rw [hempty]; decide) (by rw [hempty]; decide)
    rw [hempty] at this
    exact this
  · intro err hu
    simp only [NewExporter, hu]

/-- C10 as stated fails: in the cycle of the worked example the first sample in the sink is
the business sample users_total with value 5, and `up` with value 1 is the tenth, after all
nine business samples. -/
theorem up_not_before_business :
    Reachable demoExporter ∧ Success demoExporter exampleGet exampleResult
      ∧ (demoExporter.Collect (Range.listed _) exampleGet).2[0]? =
        some ⟨⟨"etherpad_server_users_total", "Total users.", [], []⟩,
          ValueType.CounterValue, 5⟩
      ∧ (demoExporter.Collect (Range.listed _) exampleGet).2[9]? = some (upSample 1)
      ∧ ¬ UpBeforeBusiness (demoExporter.Collect (Range.listed _) exampleGet).2 := by
  refine ⟨reachable_demoExporter, success_example, rfl, rfl, ?_⟩
  intro h
  have h90 := h 9 0 ⟨⟨"etherpad_server_users_total", "Total users.", [], []⟩,
    ValueType.CounterValue, 5⟩ rfl rfl (by unfold IsBusiness; decide)
  omega

/-- C10 amended: in a cycle whose fetch and decoding both succeed, the nine business samples
are written to the sink first, and `up` with value 1 is written after them, followed by the
total-scrapes and the parse-failures counter. -/
theorem collect_success_order (e : Exporter) (he : Reachable e)
    (order : Range e.serverMetrics) (get : Except Error Response) (result : EtherPadMetrics)
    (hs : Success e get result) :
    (∃ business : List Metric,
        (e.Collect order get).2 =
            business ++ [ upSample 1, (e.Collect order get).1.totalScrapes.toMetric,
                          (e.Collect order get).1.jsonParseFailures.toMetric ]
          ∧ business.Perm (businessSamples result))
      ∧ BusinessBeforeUp (e.Collect order get).2 := by
  have hperm := export_perm he order result
  have hout := collect_of_success e order get result hs
  obtain ⟨h1, h2⟩ := collect_counter_descs he order get
  refine ⟨⟨_, hout, hperm⟩, ?_⟩
  intro i j m hi hj hbus
  rw [hout] at hi hj
  have hlen : (e.exportJsonFields e.serverMetrics order result).length = 9 := by
    rw [hperm.length_eq]
    rfl
  have hup : ¬ IsBusiness (upSample 1) := by unfold IsBusiness; decide
  have hi9 : 9 ≤ i := by
    by_contra hlt
    rw [List.getElem?_append_left (by omega)] at hi
    exact hup (isBusiness_of_mem_businessSamples (hperm.mem_iff.mp (List.getElem?_mem hi)))
  have hj9 : j < 9 := by
    by_contra hge
    rw [List.getElem?_append_right (by omega)] at hj
    have hmem := List.getElem?_mem hj
    simp only [List.mem_cons, List.mem_singleton, List.not_mem_nil, or_false] at hmem
    rcases hmem with rfl | rfl | rfl
    · exact hup hbus
    · unfold IsBusiness at hbus
      rw [h1] at hbus
      revert hbus
      decide
    · unfold IsBusiness at hbus
      rw [h2] at hbus
      revert hbus
      decide
  omega

/-- C10 amended, at the worked example: the nine business samples, then `up` with value 1. -/
theorem collect_success_order_witness :
    Reachable demoExporter ∧ Success demoExporter exampleGet exampleResult
      ∧ BusinessBeforeUp (demoExporter.Collect (Range.listed _) exampleGet).2 :=
  ⟨reachable_demoExporter, success_example,
    (collect_success_order demoExporter reachable_demoExporter (Range.listed _) exampleGet
      exampleResult success_example).2⟩

end EtherpadExporter
